import Mathlib

/-!
Verification of the rollover & scoring engine of `src/app.js` (Life RPG).

Shallow embedding conventions:
* calendar dates (`YYYY-MM-DD` strings) are day numbers (`Int`, days since
  1970-01-01, which was a Thursday), timestamps are milliseconds (`Int`);
* JS numbers that the program keeps integral are `Int`, or `Nat` where every
  write site clamps them to a non-negative integer (streaks, quest counts,
  the daily goal);
* point arithmetic that flows through a JS division or a fractional
  multiplier is done in `ℚ` with an explicit `Math.floor`;
* `Math.random()` draws are modelled by their support: a call that the
  source wraps as `Math.floor(Math.random() * m)` is given an arbitrary
  natural draw reduced mod `m`, which ranges over exactly the integers that
  expression can produce;
* weekday names (`'Sun'..'Sat'`) are their indices `0..6` in the source's
  `weekdays` array.
-/

set_option linter.unusedVariables false

namespace LifeRPG

/-- `clamp` from app.js: `Math.max(min, Math.min(max, n))`. -/
def clamp (n lo hi : Int) : Int := max lo (min hi n)

/-- `new Date(d).getDay()`: day-of-week of a day number, `0 = Sun .. 6 = Sat`
(day 0 = 1970-01-01 was a Thursday, index 4). -/
def getDay (d : Int) : Nat := ((d + 4) % 7).toNat

/-- `startOfWeek` from app.js: back up to the configured first day of the week. -/
def startOfWeek (d : Int) (weekStart : String) : Int :=
  let day := getDay d
  let shift : Nat := if weekStart = "Mon" then (if day = 0 then 6 else day - 1) else day
  d - (shift : Int)

def msPerDay : Int := 86400000

/-- Instant of `dateStr + 'T00:00:00'`. -/
def dateStart (d : Int) : Int := d * msPerDay

/-- Instant of `dateStr + 'T23:59:59.999'`. -/
def dateEnd (d : Int) : Int := d * msPerDay + 86399999

/-- JS `t || 1` on an integer: `1` exactly when `t` is `0` (falsy), otherwise `t`
itself — including negative `t`, which is truthy in JS. -/
def orOne (t : Int) : Int := if t = 0 then 1 else t

/-- JS `q || 1` on a (possibly fractional) number. -/
def orOneQ (q : Rat) : Rat := if q = 0 then 1 else q

/-- `Math.floor` on an exact rational (`q.den` is always positive). -/
def ratFloor (q : Rat) : Int := q.num.fdiv q.den

/-! ### Data model (the fields the embedded core reads) -/

structure Task where
  id : String
  points : Int
  dueDate : Option Int
  completedAt : Option Int
  deriving DecidableEq, Repr

structure Habit where
  id : String
  type : String          -- 'binary' | 'counter'
  target : Int
  points : Int
  schedule : List Nat    -- weekday indices
  deriving DecidableEq, Repr

structure HabitLog where
  id : String
  habitId : String
  date : Int
  count : Int
  deriving DecidableEq, Repr

structure Event where
  id : String
  pointsEnabled : Bool
  points : Int
  completedAt : Option Int
  deriving DecidableEq, Repr

structure QuestLib where
  id : String
  basePoints : Int
  active : Bool
  deriving DecidableEq, Repr

structure AssignedQuest where
  id : String
  libraryId : String
  type : String          -- 'daily' | 'weekly'
  date : Option Int
  weekOf : Option Int
  multiplier : Rat
  completedAt : Option Int
  deriving DecidableEq, Repr

structure DaySummary where
  date : Int
  totalPoints : Int
  goalMet : Bool
  deriving DecidableEq, Repr

structure Settings where
  dailyGoal : Nat
  dailyQuestCount : Nat
  weekStart : String         -- 'Mon' | 'Sun'
  weeklyQuestMode : String   -- 'fixed' | 'range'
  weeklyQuestCount : Nat
  weeklyQuestMin : Nat
  weeklyQuestMax : Nat
  weeklyFactor : Rat
  deriving DecidableEq, Repr

structure Meta where
  streak : Nat
  bestStreak : Nat
  lastAssignmentRun : Option Int
  lastWeekStart : Option Int
  deriving DecidableEq, Repr

structure AppState where
  settings : Settings
  meta : Meta
  tasks : List Task
  habits : List Habit
  habitLogs : List HabitLog
  events : List Event
  questLibrary : List QuestLib
  assignedQuests : List AssignedQuest
  daySummaries : List DaySummary
  deriving DecidableEq, Repr

def DefaultSettings : Settings :=
  { dailyGoal := 100, dailyQuestCount := 3, weekStart := "Mon",
    weeklyQuestMode := "fixed", weeklyQuestCount := 3,
    weeklyQuestMin := 2, weeklyQuestMax := 4, weeklyFactor := 3 / 2 }

def DefaultMeta : Meta :=
  { streak := 0, bestStreak := 0, lastAssignmentRun := none, lastWeekStart := none }

/-! ### Scoring engine (`computeDayTotals`) -/

/-- Contribution of one task to day `d` (the `Tasks` loop of `computeDayTotals`). -/
def taskPts (d : Int) (t : Task) : Int :=
  match t.completedAt with
  | none => 0
  | some comp =>
    if dateStart d ≤ comp ∧ comp ≤ dateEnd d then
      match t.dueDate with
      | some due => if comp ≤ due then t.points else 0
      | none => t.points
    else 0

/-- Counter-habit partial credit:
`Math.floor(clamp(count, 0, target || 1) / (target || 1) * points)`. -/
def counterPts (target count points : Int) : Int :=
  ratFloor (((clamp count 0 (orOne target) : Int) : Rat) / ((orOne target : Int) : Rat)
    * ((points : Int) : Rat))

/-- Contribution of one habit log to day `d` (the `Habits` loop of
`computeDayTotals`): skip if the habit no longer exists or is not scheduled
for `d`'s weekday. -/
def habitLogPts (st : AppState) (d : Int) (log : HabitLog) : Int :=
  match st.habits.find? (fun h => h.id == log.habitId) with
  | none => 0
  | some habit =>
    if habit.schedule.contains (getDay d) then
      if habit.type == "binary" then (if 1 ≤ log.count then habit.points else 0)
      else counterPts habit.target log.count habit.points
    else 0

/-- Contribution of one event to day `d` (the `Events` loop of `computeDayTotals`). -/
def eventPts (d : Int) (ev : Event) : Int :=
  if ev.pointsEnabled then
    match ev.completedAt with
    | none => 0
    | some comp => if dateStart d ≤ comp ∧ comp ≤ dateEnd d then ev.points else 0
  else 0

/-- Contribution of one assigned quest to day `d` (the `Quests` loop of
`computeDayTotals`): skip if the library referent no longer exists. -/
def questPts (st : AppState) (d : Int) (aq : AssignedQuest) : Int :=
  match aq.completedAt with
  | none => 0
  | some comp =>
    if dateStart d ≤ comp ∧ comp ≤ dateEnd d then
      match st.questLibrary.find? (fun q => q.id == aq.libraryId) with
      | none => 0
      | some lib => ratFloor ((lib.basePoints : Rat) * orOneQ aq.multiplier)
    else 0

/-- `computeDayTotals(dateStr)`: total of the four per-item loops, plus
`goalMet = total >= settings.dailyGoal`. -/
def computeDayTotals (st : AppState) (d : Int) : DaySummary :=
  let total :=
    (st.tasks.map (taskPts d)).sum
    + ((st.habitLogs.filter (fun l => l.date == d)).map (habitLogPts st d)).sum
    + (st.events.map (eventPts d)).sum
    + (st.assignedQuests.map (questPts st d)).sum
  { date := d, totalPoints := total,
    goalMet := decide ((st.settings.dailyGoal : Int) ≤ total) }

/-! ### Summary cache (`upsertDaySummary`) -/

/-- Replace the first summary with the same date (`findIndex` + assignment in
the source), otherwise append (`push`). -/
def putSummary (sum : DaySummary) : List DaySummary → List DaySummary
  | [] => [sum]
  | s :: rest => if s.date = sum.date then sum :: rest else s :: putSummary sum rest

/-- `upsertDaySummary(dateStr)`: recompute the day's totals and store them in
the summary collection. -/
def upsertDaySummary (st : AppState) (d : Int) : AppState :=
  { st with daySummaries := putSummary (computeDayTotals st d) st.daySummaries }

/-! ### Streak evaluator (`allScheduledHabitsComplete`) -/

/-- Threshold check on a found log: the source fails the habit when
`(log.count || 0) < 1` (binary) or `(log.count || 0) < (h.target || 1)` (counter). -/
def habitThresholdMet (h : Habit) (count : Int) : Bool :=
  if h.type == "binary" then decide (1 ≤ count) else decide (orOne h.target ≤ count)

/-- `allScheduledHabitsComplete(dateStr)`. -/
def allScheduledHabitsComplete (st : AppState) (d : Int) : Bool :=
  let todays := st.habits.filter (fun h => h.schedule.contains (getDay d))
  if todays.isEmpty then true
  else todays.all (fun h =>
    match st.habitLogs.find? (fun l => l.habitId == h.id && l.date == d) with
    | none => false
    | some log => habitThresholdMet h log.count)

/-! ### Quest assignment -/

/-- One in-place swap step `[a[i], a[j]] = [a[j], a[i]]` of the Fisher–Yates
loop (identity when an index is out of range, which the loop never produces). -/
def listSwap (a : List α) (p q : Nat) : List α :=
  match a[p]?, a[q]? with
  | some x, some y => (a.set p y).set q x
  | _, _ => a

/-- The Fisher–Yates loop of `randomSample`, for `i` from `a.length - 1` down
to `1`; `rng i % (i + 1)` models `Math.floor(Math.random() * (i + 1))`. -/
def fyShuffle (rng : Nat → Nat) : Nat → List α → List α
  | 0, a => a
  | i + 1, a => fyShuffle rng i (listSwap a (i + 1) (rng (i + 1) % (i + 2)))

/-- `randomSample(arr, n)`: shuffle a copy, take the first `n`. -/
def randomSample (rng : Nat → Nat) (arr : List α) (n : Nat) : List α :=
  (fyShuffle rng (arr.length - 1) arr).take n

/-- The `AssignedQuest` records created by one `assignDailyQuests(dateStr)`
call; `ids` supplies the `uid('aq')` results. -/
def createdDailyQuests (st : AppState) (dateStr : Int) (rng : Nat → Nat)
    (ids : Nat → String) : List AssignedQuest :=
  let N := st.settings.dailyQuestCount
  let pool := st.questLibrary.filter (fun q => q.active)
  let chosen := randomSample rng pool (min N pool.length)
  chosen.enum.map (fun p =>
    { id := ids p.1, libraryId := p.2.id, type := "daily", date := some dateStr,
      weekOf := none, multiplier := 1, completedAt := none })

/-- `assignDailyQuests(dateStr)`: append the created quests (`push(...created)`). -/
def assignDailyQuests (st : AppState) (dateStr : Int) (rng : Nat → Nat)
    (ids : Nat → String) : AppState :=
  { st with assignedQuests := st.assignedQuests ++ createdDailyQuests st dateStr rng ids }

/-- `Math.floor(Math.random() * k)` for integer `k`: for `k > 0` the support is
`[0, k-1]`, for `k ≤ 0` (range misconfigured, `min > max`) it is `[k, 0]`. -/
def floorRandMul (r : Nat) (k : Int) : Int :=
  if 0 < k then (r : Int) % k else -((r : Int) % (1 - k))

/-- The weekly quest count: a draw from `[min, max]` in `'range'` mode
(`Math.max(0, Math.floor(Math.random() * (max - min + 1)) + min)`),
the fixed count otherwise. -/
def weeklyCount (s : Settings) (r : Nat) : Nat :=
  if s.weeklyQuestMode == "range" then
    (max 0 (floorRandMul r ((s.weeklyQuestMax : Int) - (s.weeklyQuestMin : Int) + 1)
      + (s.weeklyQuestMin : Int))).toNat
  else s.weeklyQuestCount

/-- The `AssignedQuest` records created by one `assignWeeklyQuests(weekStartStr)`
call; `r` is the count draw, `ids` supplies the `uid('aq')` results. -/
def createdWeeklyQuests (st : AppState) (weekStartStr : Int) (r : Nat)
    (rng : Nat → Nat) (ids : Nat → String) : List AssignedQuest :=
  let pool := st.questLibrary.filter (fun q => q.active)
  let count := weeklyCount st.settings r
  let chosen := randomSample rng pool (min count pool.length)
  chosen.enum.map (fun p =>
    { id := ids p.1, libraryId := p.2.id, type := "weekly", date := none,
      weekOf := some weekStartStr, multiplier := orOneQ st.settings.weeklyFactor,
      completedAt := none })

/-- `assignWeeklyQuests(weekStartStr)`. -/
def assignWeeklyQuests (st : AppState) (weekStartStr : Int) (r : Nat)
    (rng : Nat → Nat) (ids : Nat → String) : AppState :=
  { st with assignedQuests := st.assignedQuests ++ createdWeeklyQuests st weekStartStr r rng ids }

/-! ### Rollover controller (`ensureRollover`) -/

/-- The random draws and generated ids one `ensureRollover` call may consume. -/
structure RandomSource where
  daily : Nat → Nat
  dailyIds : Nat → String
  weekly : Nat → Nat
  weeklyIds : Nat → String
  weeklyDraw : Nat

/-- The streak mutation of the day-changed branch:
`streak = streak + 1` and raise `bestStreak` when exceeded, if the finalized
day met the goal with all scheduled habits complete; otherwise `streak = 0`. -/
def streakUpdate (m : Meta) (goalMet habitsOk : Bool) : Meta :=
  if goalMet && habitsOk then
    let streak1 := m.streak + 1
    { m with
      streak := streak1
      bestStreak := if m.bestStreak < streak1 then streak1 else m.bestStreak }
  else { m with streak := 0 }

/-- The `FirstRun` branch of `ensureRollover` (no `meta.lastAssignmentRun`). -/
def rolloverFirstRun (today : Int) (r : RandomSource) (st : AppState) : AppState :=
  let st1 := assignDailyQuests st today r.daily r.dailyIds
  let ws := startOfWeek today st.settings.weekStart
  let st2 := assignWeeklyQuests st1 ws r.weeklyDraw r.weekly r.weeklyIds
  let st3 := { st2 with meta :=
    { st2.meta with lastAssignmentRun := some today, lastWeekStart := some ws } }
  upsertDaySummary st3 today

/-- The `DayChanged` branch of `ensureRollover`: finalize `prev` (summary +
streak), assign today's dailies, refresh today's summary, then the weekly
check, then stamp `lastAssignmentRun = today`.  The source's
`sum = await upsertDaySummary(prev)` returns `computeDayTotals(prev)` of the
pre-call state (the upsert only rewrites the summary cache, which
`computeDayTotals` does not read). -/
def rolloverDayChanged (today prev : Int) (r : RandomSource) (st : AppState) : AppState :=
  let sum := computeDayTotals st prev
  let st1 := upsertDaySummary st prev
  let meta1 := streakUpdate st.meta sum.goalMet (allScheduledHabitsComplete st1 prev)
  let st2 := assignDailyQuests st1 today r.daily r.dailyIds
  let st3 := upsertDaySummary st2 today
  let lastWeek := st.meta.lastWeekStart.getD (startOfWeek prev st.settings.weekStart)
  let currentWeek := startOfWeek today st.settings.weekStart
  if currentWeek = lastWeek then
    { st3 with meta := { meta1 with lastAssignmentRun := some today } }
  else
    let st4 := assignWeeklyQuests st3 currentWeek r.weeklyDraw r.weekly r.weeklyIds
    { st4 with meta := { meta1 with
        lastWeekStart := some currentWeek
        lastAssignmentRun := some today } }

/-- `ensureRollover()`, with the wall-clock `todayStr()` passed as `today`. -/
def ensureRollover (today : Int) (r : RandomSource) (st : AppState) : AppState :=
  match st.meta.lastAssignmentRun with
  | none => rolloverFirstRun today r st
  | some last =>
    if last = today then upsertDaySummary st today
    else rolloverDayChanged today last r st

/-! ### Spec-side comparison definitions (for refinement checks only) -/

/-- Modelled from the spec's words (claim C3): counter credit with
`target ≤ 0` treated as `target = 1`.  For comparison against `counterPts`,
which implements the source's `target || 1`. -/
def specCounterPts (target count points : Int) : Int :=
  let T := if target ≤ 0 then 1 else target
  ratFloor (((clamp count 0 T : Int) : Rat) / ((T : Int) : Rat) * ((points : Int) : Rat))

/-- Modelled from the spec's words (claim C7): every habit scheduled for the
weekday has a log dated exactly `d` with `count ≥ 1` (binary) or
`count ≥ target` (counter).  For comparison against
`allScheduledHabitsComplete`, which compares against `target || 1`. -/
def specAllScheduledHabitsComplete (st : AppState) (d : Int) : Bool :=
  st.habits.all fun h =>
    !(h.schedule.contains (getDay d)) ||
      st.habitLogs.any fun l => l.habitId == h.id && l.date == d &&
        (if h.type == "binary" then decide (1 ≤ l.count) else decide (h.target ≤ l.count))

/-! ### Concrete states used by witnesses and counterexamples -/

def rng0 : Nat → Nat := fun _ => 0

def ids0 : Nat → String := fun _ => "aq"

def rsrc0 : RandomSource :=
  { daily := rng0, dailyIds := ids0, weekly := rng0, weeklyIds := ids0, weeklyDraw := 0 }

def emptyState : AppState :=
  { settings := DefaultSettings, meta := DefaultMeta, tasks := [], habits := [],
    habitLogs := [], events := [], questLibrary := [], assignedQuests := [],
    daySummaries := [] }

/-- A task worth 60 points due on day 0 at 18:00 and completed at 20:00. -/
def stOverdueTask : AppState :=
  { emptyState with
    settings := { DefaultSettings with dailyGoal := 50 }
    tasks := [{ id := "t1", points := 60, dueDate := some 64800000,
                completedAt := some 72000000 }] }

/-- A counter habit with target 3 and points 10, scheduled on day 0's weekday. -/
def habitCounter3 : Habit :=
  { id := "h1", type := "counter", target := 3, points := 10, schedule := [4] }

def logCount1 : HabitLog := { id := "hl1", habitId := "h1", date := 0, count := 1 }

def stCounterHabit : AppState :=
  { emptyState with habits := [habitCounter3], habitLogs := [logCount1] }

/-- A counter habit with a negative stored target. -/
def stNegTarget : AppState :=
  { emptyState with
    habits := [{ id := "h1", type := "counter", target := -1, points := 10,
                 schedule := [4] }]
    habitLogs := [logCount1] }

/-- A binary habit scheduled on day 0's weekday (a Thursday, index 4). -/
def habitBinary10 : Habit :=
  { id := "h1", type := "binary", target := 1, points := 10, schedule := [4] }

/-- Day 0 met its 50-point goal through an event, but its one scheduled habit
is still at count 0. -/
def stStreakReset : AppState :=
  { emptyState with
    settings := { DefaultSettings with dailyGoal := 50 }
    meta := { streak := 3, bestStreak := 3, lastAssignmentRun := some 0,
              lastWeekStart := some (-3) }
    habits := [habitBinary10]
    habitLogs := [{ id := "hl1", habitId := "h1", date := 0, count := 0 }]
    events := [{ id := "e1", pointsEnabled := true, points := 60,
                 completedAt := some 1000 }] }

/-- A counter habit whose stored target is 0, logged at count 0. -/
def stTargetZero : AppState :=
  { emptyState with
    habits := [{ id := "h1", type := "counter", target := 0, points := 5,
                 schedule := [4] }]
    habitLogs := [{ id := "hl1", habitId := "h1", date := 0, count := 0 }] }

/-- A completed binary habit scheduled on day 0's weekday. -/
def stBinaryDone : AppState :=
  { emptyState with
    habits := [{ id := "h1", type := "binary", target := 1, points := 5,
                 schedule := [4] }]
    habitLogs := [{ id := "hl1", habitId := "h1", date := 0, count := 1 }] }

/-- Two active quest-library entries. -/
def stTwoQuests : AppState :=
  { emptyState with
    questLibrary := [{ id := "q1", basePoints := 10, active := true },
                     { id := "q2", basePoints := 5, active := true }] }

/-- Range mode, min 2 / max 4, four active pool entries. -/
def stRangePool : AppState :=
  { emptyState with
    settings := { DefaultSettings with weeklyQuestMode := "range" }
    questLibrary := [{ id := "q1", basePoints := 10, active := true },
                     { id := "q2", basePoints := 5, active := true },
                     { id := "q3", basePoints := 7, active := true },
                     { id := "q4", basePoints := 9, active := true }] }

/-- Range mode with a configured weekly factor of 0. -/
def stZeroFactor : AppState :=
  { emptyState with
    settings := { DefaultSettings with
      weeklyQuestMode := "range", weeklyQuestMin := 1, weeklyQuestMax := 1,
      weeklyFactor := 0 }
    questLibrary := [{ id := "q1", basePoints := 10, active := true }] }

/-- A habit log and an assigned quest whose referents no longer exist. -/
def logGhost : HabitLog := { id := "hl1", habitId := "ghost", date := 0, count := 1 }

def aqGhost : AssignedQuest :=
  { id := "aq1", libraryId := "ghostq", type := "daily", date := some 0,
    weekOf := none, multiplier := 1, completedAt := some 0 }

def stDangling : AppState :=
  { emptyState with habitLogs := [logGhost], assignedQuests := [aqGhost] }

/-- One cached summary for day 5. -/
def stSummary5 : AppState :=
  { emptyState with daySummaries := [{ date := 5, totalPoints := 1, goalMet := false }] }

/-! ### Helper lemmas: the Fisher–Yates sampler permutes its input -/

theorem headSwapPerm {α : Type} (x : α) :
    ∀ (t : List α) (q : Nat) (y : α), t[q]? = some y → (y :: t.set q x).Perm (x :: t)
  | [], q, y, h => by simp at h
  | z :: t, 0, y, h => by
    simp only [List.getElem?_cons_zero, Option.some.injEq] at h
    subst h
    simpa using List.Perm.swap x z t
  | z :: t, q + 1, y, h => by
    simp only [List.getElem?_cons_succ] at h
    have h1 : List.Perm (y :: z :: t.set q x) (z :: y :: t.set q x) := List.Perm.swap z y _
    have h2 : List.Perm (z :: y :: t.set q x) (z :: x :: t) :=
      List.Perm.cons z (headSwapPerm x t q y h)
    have h3 : List.Perm (z :: x :: t) (x :: z :: t) := List.Perm.swap x z t
    simpa using (h1.trans h2).trans h3

theorem setSetPerm {α : Type} :
    ∀ (a : List α) (p q : Nat) (x y : α), a[p]? = some x → a[q]? = some y →
      ((a.set p y).set q x).Perm a
  | [], p, q, x, y, hp, hq => by simp at hp
  | z :: t, 0, 0, x, y, hp, hq => by
    simp only [List.getElem?_cons_zero, Option.some.injEq] at hp hq
    subst hp; subst hq
    simp
  | z :: t, 0, j + 1, x, y, hp, hq => by
    simp only [List.getElem?_cons_zero, Option.some.injEq] at hp
    simp only [List.getElem?_cons_succ] at hq
    subst hp
    simpa using headSwapPerm z t j y hq
  | z :: t, i + 1, 0, x, y, hp, hq => by
    simp only [List.getElem?_cons_zero, Option.some.injEq] at hq
    simp only [List.getElem?_cons_succ] at hp
    subst hq
    simpa using headSwapPerm z t i x hp
  | z :: t, i + 1, j + 1, x, y, hp, hq => by
    simp only [List.getElem?_cons_succ] at hp hq
    simpa using List.Perm.cons z (setSetPerm t i j x y hp hq)

theorem listSwap_perm {α : Type} (a : List α) (p q : Nat) : (listSwap a p q).Perm a := by
  unfold listSwap
  split
  · next x y hp hq => exact setSetPerm a p q x y hp hq
  · exact List.Perm.refl a

theorem fyShuffle_perm {α : Type} (rng : Nat → Nat) :
    ∀ (i : Nat) (a : List α), (fyShuffle rng i a).Perm a
  | 0, a => List.Perm.refl a
  | i + 1, a =>
    (fyShuffle_perm rng i (listSwap a (i + 1) (rng (i + 1) % (i + 2)))).trans
      (listSwap_perm a (i + 1) (rng (i + 1) % (i + 2)))

theorem randomSample_perm_take {α : Type} (rng : Nat → Nat) (arr : List α) (n : Nat) :
    (fyShuffle rng (arr.length - 1) arr).Perm arr ∧
      randomSample rng arr n = (fyShuffle rng (arr.length - 1) arr).take n :=
  ⟨fyShuffle_perm rng _ arr, rfl⟩

theorem randomSample_length {α : Type} (rng : Nat → Nat) (arr : List α) (n : Nat) :
    (randomSample rng arr n).length = min n arr.length := by
  rw [randomSample, List.length_take, (fyShuffle_perm rng (arr.length - 1) arr).length_eq]

theorem randomSample_subset {α : Type} (rng : Nat → Nat) (arr : List α) (n : Nat) :
    ∀ x ∈ randomSample rng arr n, x ∈ arr := by
  intro x hx
  exact (fyShuffle_perm rng (arr.length - 1) arr).mem_iff.mp
    ((List.take_sublist n _).subset hx)

theorem randomSample_map_nodup {α β : Type} (rng : Nat → Nat) (arr : List α) (n : Nat)
    (f : α → β) (h : (arr.map f).Nodup) : ((randomSample rng arr n).map f).Nodup := by
  have hp : ((fyShuffle rng (arr.length - 1) arr).map f).Perm (arr.map f) :=
    (fyShuffle_perm rng (arr.length - 1) arr).map f
  have hn : ((fyShuffle rng (arr.length - 1) arr).map f).Nodup := (hp.nodup_iff).mpr h
  exact hn.sublist ((List.take_sublist n _).map f)

/-! ### Frame lemmas about the state-passing operations -/

theorem upsertDaySummary_meta (st : AppState) (d : Int) :
    (upsertDaySummary st d).meta = st.meta := rfl

theorem upsertDaySummary_assignedQuests (st : AppState) (d : Int) :
    (upsertDaySummary st d).assignedQuests = st.assignedQuests := rfl

theorem computeDayTotals_upsert (st : AppState) (e d : Int) :
    computeDayTotals (upsertDaySummary st e) d = computeDayTotals st d := rfl

theorem allScheduled_upsert (st : AppState) (e d : Int) :
    allScheduledHabitsComplete (upsertDaySummary st e) d
      = allScheduledHabitsComplete st d := rfl

theorem rolloverFirstRun_meta (today : Int) (r : RandomSource) (st : AppState) :
    (rolloverFirstRun today r st).meta =
      { st.meta with
        lastAssignmentRun := some today
        lastWeekStart := some (startOfWeek today st.settings.weekStart) } := rfl

theorem rolloverDayChanged_streak (today prev : Int) (r : RandomSource) (st : AppState) :
    (rolloverDayChanged today prev r st).meta.streak =
      (streakUpdate st.meta (computeDayTotals st prev).goalMet
        (allScheduledHabitsComplete st prev)).streak := by
  simp only [rolloverDayChanged]
  split <;> rfl

theorem rolloverDayChanged_bestStreak (today prev : Int) (r : RandomSource) (st : AppState) :
    (rolloverDayChanged today prev r st).meta.bestStreak =
      (streakUpdate st.meta (computeDayTotals st prev).goalMet
        (allScheduledHabitsComplete st prev)).bestStreak := by
  simp only [rolloverDayChanged]
  split <;> rfl

theorem rolloverDayChanged_lastRun (today prev : Int) (r : RandomSource) (st : AppState) :
    (rolloverDayChanged today prev r st).meta.lastAssignmentRun = some today := by
  simp only [rolloverDayChanged]
  split <;> rfl

theorem ensureRollover_of_none (today : Int) (r : RandomSource) (st : AppState)
    (h : st.meta.lastAssignmentRun = none) :
    ensureRollover today r st = rolloverFirstRun today r st := by
  unfold ensureRollover
  rw [h]

theorem ensureRollover_of_eq (today : Int) (r : RandomSource) (st : AppState)
    (h : st.meta.lastAssignmentRun = some today) :
    ensureRollover today r st = upsertDaySummary st today := by
  unfold ensureRollover
  rw [h]
  simp

theorem ensureRollover_of_ne (today prev : Int) (r : RandomSource) (st : AppState)
    (h : st.meta.lastAssignmentRun = some prev) (hne : prev ≠ today) :
    ensureRollover today r st = rolloverDayChanged today prev r st := by
  unfold ensureRollover
  rw [h]
  simp [hne]

/-- Every branch of `ensureRollover` stamps `lastAssignmentRun = today`. -/
theorem ensureRollover_lastRun (today : Int) (r : RandomSource) (st : AppState) :
    (ensureRollover today r st).meta.lastAssignmentRun = some today := by
  cases h : st.meta.lastAssignmentRun with
  | none => rw [ensureRollover_of_none today r st h, rolloverFirstRun_meta]
  | some last =>
    by_cases he : last = today
    · rw [he] at h
      rw [ensureRollover_of_eq today r st h, upsertDaySummary_meta, h]
    · rw [ensureRollover_of_ne today last r st h he, rolloverDayChanged_lastRun]

/-- C1: a second `ensureRollover` on the same wall-clock date observes
`meta.lastAssignmentRun = today` (the `SameDay` state), only refreshes
today's summary, performs no quest assignment and no streak or bestStreak
mutation, and leaves the lifecycle record identical to its value after the
first call. -/
theorem ensureRollover_sameDay_idempotent (st : AppState) (today : Int)
    (r1 r2 : RandomSource) :
    (ensureRollover today r1 st).meta.lastAssignmentRun = some today ∧
    ensureRollover today r2 (ensureRollover today r1 st)
      = upsertDaySummary (ensureRollover today r1 st) today ∧
    (ensureRollover today r2 (ensureRollover today r1 st)).meta
      = (ensureRollover today r1 st).meta ∧
    (ensureRollover today r2 (ensureRollover today r1 st)).assignedQuests
      = (ensureRollover today r1 st).assignedQuests := by
  have h1 := ensureRollover_lastRun today r1 st
  have h2 := ensureRollover_of_eq today r2 (ensureRollover today r1 st) h1
  exact ⟨h1, h2, by rw [h2, upsertDaySummary_meta],
    by rw [h2, upsertDaySummary_assignedQuests]⟩

/-- The streak mutation keeps `streak ≤ bestStreak`. -/
theorem streakUpdate_le (m : Meta) (g hk : Bool) :
    m.streak ≤ m.bestStreak →
      (streakUpdate m g hk).streak ≤ (streakUpdate m g hk).bestStreak := by
  intro h
  unfold streakUpdate
  split
  · simp only []
    split <;> omega
  · simp only []
    omega

/-- C9: `meta.streak ≤ meta.bestStreak` holds for the default meta record and
is preserved by every run of `ensureRollover` (first-run, same-day, and both
outcomes of the day-changed branch). -/
theorem streak_le_bestStreak_invariant :
    DefaultMeta.streak ≤ DefaultMeta.bestStreak ∧
    ∀ (st : AppState) (today : Int) (r : RandomSource),
      st.meta.streak ≤ st.meta.bestStreak →
      (ensureRollover today r st).meta.streak
        ≤ (ensureRollover today r st).meta.bestStreak := by
  refine ⟨Nat.le_refl 0, ?_⟩
  intro st today r h
  cases hrun : st.meta.lastAssignmentRun with
  | none =>
    rw [ensureRollover_of_none today r st hrun, rolloverFirstRun_meta]
    exact h
  | some last =>
    by_cases he : last = today
    · rw [he] at hrun
      rw [ensureRollover_of_eq today r st hrun, upsertDaySummary_meta]
      exact h
    · rw [ensureRollover_of_ne today last r st hrun he,
        rolloverDayChanged_streak, rolloverDayChanged_bestStreak]
      exact streakUpdate_le st.meta _ _ h

/-- Witness for C9 at a concrete state. -/
theorem streak_le_bestStreak_invariant_witness :
    (ensureRollover 0 rsrc0 stTwoQuests).meta.streak
      ≤ (ensureRollover 0 rsrc0 stTwoQuests).meta.bestStreak :=
  streak_le_bestStreak_invariant.2 stTwoQuests 0 rsrc0 (Nat.le_refl 0)

theorem streakUpdate_true_streak (m : Meta) : (streakUpdate m true true).streak = m.streak + 1 := rfl

theorem streakUpdate_true_bestStreak (m : Meta) :
    (streakUpdate m true true).bestStreak = max m.bestStreak (m.streak + 1) := by
  show (if m.bestStreak < m.streak + 1 then m.streak + 1 else m.bestStreak)
    = max m.bestStreak (m.streak + 1)
  rw [Nat.max_def]
  split <;> split <;> omega

theorem streakUpdate_false (m : Meta) (g hk : Bool) (h : (g && hk) = false) :
    (streakUpdate m g hk).streak = 0 ∧ (streakUpdate m g hk).bestStreak = m.bestStreak := by
  unfold streakUpdate
  rw [h]
  exact ⟨rfl, rfl⟩

/-- C2: on a day-changed `ensureRollover`, exactly one streak update is
applied, to the previous day `prev = lastAssignmentRun`: if `prev`'s
recomputed summary met the goal AND all scheduled habits for `prev` are
complete, `streak` increments by exactly 1 and `bestStreak` is raised to the
new streak when exceeded; otherwise `streak` is reset to 0 (and `bestStreak`
is untouched). -/
theorem ensureRollover_streak_update (st : AppState) (today prev : Int)
    (r : RandomSource) (h1 : st.meta.lastAssignmentRun = some prev)
    (h2 : prev ≠ today) :
    ((computeDayTotals st prev).goalMet = true ∧
        allScheduledHabitsComplete st prev = true →
      (ensureRollover today r st).meta.streak = st.meta.streak + 1 ∧
      (ensureRollover today r st).meta.bestStreak
        = max st.meta.bestStreak (st.meta.streak + 1)) ∧
    (¬((computeDayTotals st prev).goalMet = true ∧
        allScheduledHabitsComplete st prev = true) →
      (ensureRollover today r st).meta.streak = 0 ∧
      (ensureRollover today r st).meta.bestStreak = st.meta.bestStreak) := by
  rw [ensureRollover_of_ne today prev r st h1 h2]
  rw [rolloverDayChanged_streak, rolloverDayChanged_bestStreak]
  constructor
  · rintro ⟨hg, hh⟩
    rw [hg, hh]
    exact ⟨streakUpdate_true_streak st.meta, streakUpdate_true_bestStreak st.meta⟩
  · intro hn
    have hfalse : ((computeDayTotals st prev).goalMet &&
        allScheduledHabitsComplete st prev) = false := by
      cases hg : (computeDayTotals st prev).goalMet <;>
        cases hh : allScheduledHabitsComplete st prev <;>
        simp_all
    exact streakUpdate_false st.meta _ _ hfalse

/-- Witness for C2: day 0 met its 50-point goal through an event, but its one
scheduled habit is at count 0, so the streak resets even though the point goal
was met, and bestStreak stays at 3. -/
theorem ensureRollover_streak_update_witness :
    (ensureRollover 1 rsrc0 stStreakReset).meta.streak = 0 ∧
    (ensureRollover 1 rsrc0 stStreakReset).meta.bestStreak = 3 := by
  have h := (ensureRollover_streak_update stStreakReset 1 0 rsrc0 rfl
    (by decide)).2 (by decide)
  exact ⟨h.1, h.2.trans rfl⟩

/-! ### Evaluating the exact-rational floors over the integers -/

theorem ratFloor_eq_floor (q : Rat) : ratFloor q = ⌊q⌋ := by
  rw [Rat.floor_def, ratFloor, Int.fdiv_eq_ediv _ (by positivity)]

theorem ratFloor_div_mul (c T p : Int) (hT : 0 < T) :
    ratFloor ((c : Rat) / (T : Rat) * (p : Rat)) = (c * p).fdiv T := by
  have h2 : ((T.toNat : Nat) : Rat) = (T : Rat) := by
    have h3 := Int.toNat_of_nonneg hT.le
    exact_mod_cast congrArg (fun z : Int => (z : Rat)) h3
  have h1 : (c : Rat) / (T : Rat) * (p : Rat)
      = ((c * p : Int) : Rat) / ((T.toNat : Nat) : Rat) := by
    rw [h2]
    push_cast
    ring
  rw [h1, ratFloor_eq_floor, Rat.floor_intCast_div_natCast,
    Int.fdiv_eq_ediv _ hT.le, Int.toNat_of_nonneg hT.le]

theorem orOne_pos_or_neg (t : Int) : 0 < orOne t ∨ orOne t < 0 := by
  unfold orOne
  split <;> omega

/-- `counterPts` over the integers: the floor of the exact rational
`clamp(count,0,T)/T · points` is integer floor-division. -/
theorem counterPts_fdiv (t c p : Int) :
    counterPts t c p = (clamp c 0 (orOne t) * p).fdiv (orOne t) := by
  rcases orOne_pos_or_neg t with h | h
  · exact ratFloor_div_mul _ _ _ h
  · have hc : clamp c 0 (orOne t) = 0 := by
      unfold clamp
      omega
    rw [counterPts, hc]
    simp [ratFloor]

/-- C3 (amended): for a counter habit whose log is dated `d`, whose schedule
includes `d`'s weekday and which still exists, `computeDayTotals`' habit loop
adds exactly `floor(clamp(count, 0, T) / T * points)` with `T = target` when
`target > 0` and `T = 1` when `target = 0` (never dividing by zero); a
*negative* stored target, however, is passed through unchanged by the
source's `target || 1`, so the clamp collapses to 0 and the log contributes
0.  In particular `target = 3, points = 10, count = 1` contributes 3. -/
theorem habit_counter_partial_credit (st : AppState) (d : Int) (log : HabitLog)
    (habit : Habit)
    (hfind : st.habits.find? (fun h => h.id == log.habitId) = some habit)
    (htype : habit.type = "counter")
    (hsched : habit.schedule.contains (getDay d) = true) :
    habitLogPts st d log =
      (if 0 < habit.target then
        ratFloor (((clamp log.count 0 habit.target : Int) : Rat)
          / ((habit.target : Int) : Rat) * ((habit.points : Int) : Rat))
      else if habit.target = 0 then
        ratFloor (((clamp log.count 0 1 : Int) : Rat) / ((1 : Int) : Rat)
          * ((habit.points : Int) : Rat))
      else 0) ∧
    counterPts 3 1 10 = 3 := by
  constructor
  · have hb : (habit.type == "binary") = false := by
      rw [htype]
      rfl
    unfold habitLogPts
    simp only [hfind]
    simp only [hsched, hb, Bool.false_eq_true, eq_self_iff_true, if_true, if_false]
    by_cases hpos : 0 < habit.target
    · rw [if_pos hpos]
      have ho : orOne habit.target = habit.target := by
        unfold orOne
        omega
      unfold counterPts
      rw [ho]
    · rw [if_neg hpos]
      by_cases h0 : habit.target = 0
      · rw [if_pos h0]
        have ho : orOne habit.target = 1 := by
          unfold orOne
          rw [if_pos h0]
        unfold counterPts
        rw [ho]
      · rw [if_neg h0]
        rw [counterPts_fdiv]
        have hneg : orOne habit.target < 0 := by
          unfold orOne
          rw [if_neg h0]
          omega
        have hc : clamp log.count 0 (orOne habit.target) = 0 := by
          unfold clamp
          omega
        rw [hc]
        simp
  · rw [counterPts_fdiv]
    decide

/-- Witness for C3 (amended): target 3, points 10, count 1 contributes 3. -/
theorem habit_counter_partial_credit_witness :
    habitLogPts stCounterHabit 0 logCount1 = 3 := by
  have h := (habit_counter_partial_credit stCounterHabit 0 logCount1 habitCounter3
    rfl rfl rfl).1
  rw [h, if_pos (by decide : (0 : Int) < habitCounter3.target),
    ratFloor_div_mul _ _ _ (by decide : (0 : Int) < habitCounter3.target)]
  decide

/-- C3 counterexample: with a stored target of −1 the source's `target || 1`
keeps the negative target (it is truthy in JS), the clamp collapses to 0 and
the log contributes 0 — while the claim's `target ≤ 0 ⇒ T = 1` formula
predicts 10 at count 1, points 10. -/
theorem habit_counter_negative_target_cex :
    habitLogPts stNegTarget 0 logCount1 = 0 ∧
    (computeDayTotals stNegTarget 0).totalPoints = 0 ∧
    specCounterPts (-1) 1 10 = 10 := by
  have h1 : habitLogPts stNegTarget 0 logCount1 = 0 := by
    show counterPts (-1) 1 10 = 0
    rw [counterPts_fdiv]
    decide
  refine ⟨h1, ?_, ?_⟩
  · show 0 + (habitLogPts stNegTarget 0 logCount1 + 0) + 0 + 0 = 0
    rw [h1]
    decide
  · show ratFloor (((clamp 1 0 1 : Int) : Rat) / ((1 : Int) : Rat)
      * ((10 : Int) : Rat)) = 10
    rw [ratFloor_div_mul _ _ _ (by decide : (0 : Int) < 1)]
    decide

/-- C4: a task completed strictly after its due timestamp contributes 0 on the
completion date, regardless of its point value; concretely, with dailyGoal 50
and the only completable item a 60-point task due on day 0 at 18:00 and
completed at 20:00, `computeDayTotals` on day 0 yields 0 points and the goal
is unmet. -/
theorem task_overdue_zero :
    (∀ (d : Int) (t : Task) (comp due : Int), t.completedAt = some comp →
      t.dueDate = some due → due < comp → taskPts d t = 0) ∧
    computeDayTotals stOverdueTask 0 =
      { date := 0, totalPoints := 0, goalMet := false } := by
  constructor
  · intro d t comp due hc hd hlt
    obtain ⟨tid, tpts, tdue, tcomp⟩ := t
    simp only at hc hd
    subst hc
    subst hd
    show (if dateStart d ≤ comp ∧ comp ≤ dateEnd d then
      if comp ≤ due then tpts else 0 else 0) = 0
    split
    · rw [if_neg (by omega)]
    · rfl
  · decide

/-- Witness for C4 at the concrete overdue task. -/
theorem task_overdue_zero_witness :
    taskPts 0 { id := "t1", points := 60, dueDate := some 64800000, completedAt := some 72000000 } = 0 :=
  task_overdue_zero.1 0 _ 72000000 64800000 rfl rfl (by decide)

/-- C8: `computeDayTotals` never fails on a dangling reference — a habit log
whose `habitId` matches no existing habit contributes 0, a completed assigned
quest whose `libraryId` matches no existing library entry contributes 0, and
the function still returns a well-formed `{date, totalPoints, goalMet}`
record with `goalMet = (totalPoints ≥ dailyGoal)`. -/
theorem missing_referent_skip :
    (∀ (st : AppState) (d : Int) (log : HabitLog),
      st.habits.find? (fun h => h.id == log.habitId) = none →
        habitLogPts st d log = 0) ∧
    (∀ (st : AppState) (d : Int) (aq : AssignedQuest),
      st.questLibrary.find? (fun q => q.id == aq.libraryId) = none →
        questPts st d aq = 0) ∧
    (∀ (st : AppState) (d : Int), (computeDayTotals st d).date = d ∧
      (computeDayTotals st d).goalMet
        = decide ((st.settings.dailyGoal : Int)
            ≤ (computeDayTotals st d).totalPoints)) := by
  refine ⟨?_, ?_, ?_⟩
  · intro st d log h
    unfold habitLogPts
    rw [h]
  · intro st d aq h
    unfold questPts
    simp only [h]
    cases aq.completedAt with
    | none => rfl
    | some comp =>
      show (if dateStart d ≤ comp ∧ comp ≤ dateEnd d then 0 else 0) = 0
      rw [ite_self]
  · intro st d
    exact ⟨rfl, rfl⟩

/-- Witness for C8 at a state whose log and quest referents are missing. -/
theorem missing_referent_skip_witness :
    habitLogPts stDangling 0 logGhost = 0 ∧ questPts stDangling 0 aqGhost = 0 :=
  ⟨missing_referent_skip.1 stDangling 0 logGhost rfl,
   missing_referent_skip.2.1 stDangling 0 aqGhost rfl⟩

/-! ### Summary-cache frame lemmas -/

theorem putSummary_find_self (sum : DaySummary) :
    ∀ l : List DaySummary,
      (putSummary sum l).find? (fun s => s.date == sum.date) = some sum
  | [] => by simp [putSummary, List.find?]
  | s :: rest => by
    unfold putSummary
    by_cases h : s.date = sum.date
    · rw [if_pos h]
      simp [List.find?]
    · rw [if_neg h]
      have hps : (s.date == sum.date) = false := beq_eq_false_iff_ne.mpr h
      simp only [List.find?, hps]
      exact putSummary_find_self sum rest

theorem putSummary_find_other (sum : DaySummary) (e : Int) (he : e ≠ sum.date) :
    ∀ l : List DaySummary,
      (putSummary sum l).find? (fun s => s.date == e) = l.find? (fun s => s.date == e)
  | [] => by
    have h1 : (sum.date == e) = false := beq_eq_false_iff_ne.mpr (Ne.symm he)
    simp [putSummary, List.find?, h1]
  | s :: rest => by
    unfold putSummary
    by_cases h : s.date = sum.date
    · rw [if_pos h]
      have h1 : (sum.date == e) = false := beq_eq_false_iff_ne.mpr (Ne.symm he)
      have h2 : (s.date == e) = false := by
        rw [h]
        exact h1
      simp [List.find?, h1, h2]
    · rw [if_neg h]
      by_cases hse : s.date = e
      · have h3 : (s.date == e) = true := beq_iff_eq.mpr hse
        simp [List.find?, h3]
      · have h3 : (s.date == e) = false := beq_eq_false_iff_ne.mpr hse
        simp only [List.find?, h3]
        exact putSummary_find_other sum e he rest

theorem putSummary_mem_dates (sum : DaySummary) (x : Int) :
    ∀ l : List DaySummary, x ∈ (putSummary sum l).map (fun s => s.date) →
      x = sum.date ∨ x ∈ l.map (fun s => s.date)
  | [] => by
    intro h
    simp [putSummary] at h
    exact Or.inl h
  | s :: rest => by
    intro h
    unfold putSummary at h
    by_cases hc : s.date = sum.date
    · rw [if_pos hc] at h
      simp only [List.map_cons, List.mem_cons] at h
      rcases h with h | h
      · exact Or.inl h
      · exact Or.inr (by simp only [List.map_cons, List.mem_cons]; exact Or.inr h)
    · rw [if_neg hc] at h
      simp only [List.map_cons, List.mem_cons] at h
      rcases h with h | h
      · exact Or.inr (by simp only [List.map_cons, List.mem_cons]; exact Or.inl h)
      · rcases putSummary_mem_dates sum x rest h with h1 | h1
        · exact Or.inl h1
        · exact Or.inr (by simp only [List.map_cons, List.mem_cons]; exact Or.inr h1)

theorem putSummary_nodup (sum : DaySummary) :
    ∀ l : List DaySummary, (l.map (fun s => s.date)).Nodup →
      ((putSummary sum l).map (fun s => s.date)).Nodup
  | [], h => by simp [putSummary]
  | s :: rest, h => by
    unfold putSummary
    by_cases hc : s.date = sum.date
    · rw [if_pos hc]
      simp only [List.map_cons, List.nodup_cons] at h ⊢
      exact ⟨by rw [← hc]; exact h.1, h.2⟩
    · rw [if_neg hc]
      simp only [List.map_cons, List.nodup_cons] at h ⊢
      refine ⟨?_, putSummary_nodup sum rest h.2⟩
      intro hmem
      rcases putSummary_mem_dates sum s.date rest hmem with h1 | h1
      · exact hc h1
      · exact h.1 h1

/-- C10: `upsertDaySummary(d)` sets the cached summary for `d` to exactly
`computeDayTotals(d)`, leaves the cached summary of every other date
unchanged, and preserves at-most-one-entry-per-date of the summary
collection. -/
theorem upsertDaySummary_frame (st : AppState) (d : Int) :
    (upsertDaySummary st d).daySummaries.find? (fun s => s.date == d)
        = some (computeDayTotals st d) ∧
    (∀ e : Int, e ≠ d →
      (upsertDaySummary st d).daySummaries.find? (fun s => s.date == e)
        = st.daySummaries.find? (fun s => s.date == e)) ∧
    ((st.daySummaries.map (fun s => s.date)).Nodup →
      ((upsertDaySummary st d).daySummaries.map (fun s => s.date)).Nodup) := by
  refine ⟨?_, ?_, ?_⟩
  · exact putSummary_find_self (computeDayTotals st d) st.daySummaries
  · intro e he
    exact putSummary_find_other (computeDayTotals st d) e he st.daySummaries
  · intro h
    exact putSummary_nodup (computeDayTotals st d) st.daySummaries h

/-- Witness for C10 at a state caching a summary for day 5, upserting day 0. -/
theorem upsertDaySummary_frame_witness :
    (upsertDaySummary stSummary5 0).daySummaries.find? (fun s => s.date == 5)
      = stSummary5.daySummaries.find? (fun s => s.date == 5) ∧
    ((upsertDaySummary stSummary5 0).daySummaries.map (fun s => s.date)).Nodup :=
  ⟨(upsertDaySummary_frame stSummary5 0).2.1 5 (by decide),
   (upsertDaySummary_frame stSummary5 0).2.2 (by decide)⟩

/-! ### Streak-evaluator characterization -/

theorem habitThresholdMet_iff (h : Habit) (c : Int) :
    habitThresholdMet h c = true ↔
      (if h.type = "binary" then 1 ≤ c else orOne h.target ≤ c) := by
  unfold habitThresholdMet
  by_cases ht : h.type = "binary"
  · have hb : (h.type == "binary") = true := beq_iff_eq.mpr ht
    simp [hb, ht]
  · have hb : (h.type == "binary") = false := beq_eq_false_iff_ne.mpr ht
    simp [hb, ht]

/-- C7 (amended): `allScheduledHabitsComplete(d)` is true when no habit is
scheduled on `d`'s weekday, and otherwise exactly when every scheduled habit
has a log dated `d` with `count ≥ 1` (binary) or `count ≥ target || 1`
(counter — a stored target of 0 is replaced by 1, while any other target,
negative included, is compared as stored).  Stated under the store invariant
of one log per habit and date (`keyPath` is the composite id). -/
theorem allScheduledHabitsComplete_iff (st : AppState) (d : Int)
    (huniq : ∀ l1 ∈ st.habitLogs, ∀ l2 ∈ st.habitLogs,
      l1.habitId = l2.habitId → l1.date = l2.date → l1 = l2) :
    allScheduledHabitsComplete st d = true ↔
      ∀ h ∈ st.habits, getDay d ∈ h.schedule →
        ∃ l ∈ st.habitLogs, l.habitId = h.id ∧ l.date = d ∧
          (if h.type = "binary" then 1 ≤ l.count else orOne h.target ≤ l.count) := by
  unfold allScheduledHabitsComplete
  have hshort : ∀ (todays : List Habit) (P : Habit → Bool),
      (if todays.isEmpty then true else todays.all P) = todays.all P := by
    intro todays P
    cases todays <;> simp
  rw [hshort, List.all_eq_true]
  constructor
  · intro hall h hmem hsch
    have hmemf : h ∈ st.habits.filter (fun hh => hh.schedule.contains (getDay d)) := by
      rw [List.mem_filter]
      exact ⟨hmem, by simpa using hsch⟩
    have hP := hall h hmemf
    cases hfind : st.habitLogs.find? (fun l => l.habitId == h.id && l.date == d) with
    | none =>
      rw [hfind] at hP
      exact absurd hP (by simp)
    | some log =>
      rw [hfind] at hP
      have hP' : habitThresholdMet h log.count = true := hP
      have hlmem := List.mem_of_find?_eq_some hfind
      have hlp := List.find?_some hfind
      simp only [Bool.and_eq_true, beq_iff_eq] at hlp
      exact ⟨log, hlmem, hlp.1, hlp.2, (habitThresholdMet_iff h log.count).mp hP'⟩
  · intro hx h hmemf
    rw [List.mem_filter] at hmemf
    obtain ⟨hmem, hsch⟩ := hmemf
    obtain ⟨l, hlmem, hid, hdate, hthr⟩ := hx h hmem (by simpa using hsch)
    cases hfind : st.habitLogs.find? (fun ll => ll.habitId == h.id && ll.date == d) with
    | none =>
      exfalso
      have hnone := List.find?_eq_none.mp hfind l hlmem
      simp only [Bool.and_eq_true, beq_iff_eq] at hnone
      exact hnone ⟨hid, hdate⟩
    | some log =>
      have hlp := List.find?_some hfind
      simp only [Bool.and_eq_true, beq_iff_eq] at hlp
      have hlmem2 := List.mem_of_find?_eq_some hfind
      have heq : log = l :=
        huniq log hlmem2 l hlmem (by rw [hlp.1, hid]) (by rw [hlp.2, hdate])
      show habitThresholdMet h log.count = true
      rw [heq]
      exact (habitThresholdMet_iff h l.count).mpr hthr

/-- Witness for C7 (amended) at a state with one completed binary habit. -/
theorem allScheduledHabitsComplete_iff_witness :
    allScheduledHabitsComplete stBinaryDone 0 = true ↔
      ∀ h ∈ stBinaryDone.habits, getDay 0 ∈ h.schedule →
        ∃ l ∈ stBinaryDone.habitLogs, l.habitId = h.id ∧ l.date = 0 ∧
          (if h.type = "binary" then 1 ≤ l.count else orOne h.target ≤ l.count) :=
  allScheduledHabitsComplete_iff stBinaryDone 0 (by decide)

/-- C7 counterexample: for a stored counter target of 0 the source requires
`count ≥ (target || 1) = 1`, while the claim's `count ≥ target` threshold
accepts a log at count 0 — the two sides disagree at that state. -/
theorem allScheduled_target_zero_cex :
    allScheduledHabitsComplete stTargetZero 0 = false ∧
    specAllScheduledHabitsComplete stTargetZero 0 = true := by
  decide

/-! ### Quest assignment: without-replacement sampling and range bounds -/

theorem map_libraryId_enumFrom (mk : Nat × QuestLib → AssignedQuest)
    (hmk : ∀ p, (mk p).libraryId = p.2.id) :
    ∀ (k : Nat) (l : List QuestLib),
      ((l.enumFrom k).map mk).map (fun a => a.libraryId) = l.map (fun q => q.id)
  | k, [] => rfl
  | k, q :: t => by
    simp only [List.enumFrom_cons, List.map_cons, hmk]
    rw [map_libraryId_enumFrom mk hmk (k + 1) t]

theorem createdDailyQuests_libIds (st : AppState) (dateStr : Int) (rng : Nat → Nat)
    (ids : Nat → String) :
    (createdDailyQuests st dateStr rng ids).map (fun a => a.libraryId)
      = (randomSample rng (st.questLibrary.filter (fun q => q.active))
          (min st.settings.dailyQuestCount
            (st.questLibrary.filter (fun q => q.active)).length)).map
          (fun q => q.id) := by
  unfold createdDailyQuests
  exact map_libraryId_enumFrom _ (fun p => rfl) 0 _

theorem createdWeeklyQuests_libIds (st : AppState) (wk : Int) (r : Nat)
    (rng : Nat → Nat) (ids : Nat → String) :
    (createdWeeklyQuests st wk r rng ids).map (fun a => a.libraryId)
      = (randomSample rng (st.questLibrary.filter (fun q => q.active))
          (min (weeklyCount st.settings r)
            (st.questLibrary.filter (fun q => q.active)).length)).map
          (fun q => q.id) := by
  unfold createdWeeklyQuests
  exact map_libraryId_enumFrom _ (fun p => rfl) 0 _

/-- C5: each assignment call creates assigned quests referencing
pairwise-distinct entries of the active pool `P` and numbering exactly
`min(n, |P|)` for the requested count `n` (never more than the pool size,
and zero when `P` is empty or `n = 0`) — for the daily call with
`n = settings.dailyQuestCount` and for the weekly call with `n` the drawn
weekly count, for every value of the random source.  Stated under the store
invariant of unique library ids (`keyPath: id`). -/
theorem quest_assignment_without_replacement (st : AppState) (dateStr wk : Int)
    (rngD rngW : Nat → Nat) (idsD idsW : Nat → String) (r : Nat)
    (hids : (st.questLibrary.map (fun q => q.id)).Nodup) :
    ((createdDailyQuests st dateStr rngD idsD).length
        = min st.settings.dailyQuestCount
            (st.questLibrary.filter (fun q => q.active)).length) ∧
    ((createdDailyQuests st dateStr rngD idsD).map (fun a => a.libraryId)).Nodup ∧
    (∀ a ∈ createdDailyQuests st dateStr rngD idsD,
      a.libraryId ∈ (st.questLibrary.filter (fun q => q.active)).map (fun q => q.id)) ∧
    ((createdWeeklyQuests st wk r rngW idsW).length
        = min (weeklyCount st.settings r)
            (st.questLibrary.filter (fun q => q.active)).length) ∧
    ((createdWeeklyQuests st wk r rngW idsW).map (fun a => a.libraryId)).Nodup ∧
    (∀ a ∈ createdWeeklyQuests st wk r rngW idsW,
      a.libraryId ∈ (st.questLibrary.filter (fun q => q.active)).map (fun q => q.id)) := by
  have hpool : ((st.questLibrary.filter (fun q => q.active)).map (fun q => q.id)).Nodup :=
    hids.sublist ((st.questLibrary.filter_sublist).map (fun q => q.id))
  refine ⟨?_, ?_, ?_, ?_, ?_, ?_⟩
  · unfold createdDailyQuests
    rw [List.length_map, List.enum_length, randomSample_length, min_assoc, min_self]
  · rw [createdDailyQuests_libIds]
    exact randomSample_map_nodup _ _ _ _ hpool
  · intro a ha
    have hmm : a.libraryId ∈ (createdDailyQuests st dateStr rngD idsD).map
        (fun a => a.libraryId) := List.mem_map_of_mem _ ha
    rw [createdDailyQuests_libIds] at hmm
    obtain ⟨q, hq, hqe⟩ := List.mem_map.mp hmm
    exact hqe ▸ List.mem_map_of_mem _ (randomSample_subset _ _ _ q hq)
  · unfold createdWeeklyQuests
    rw [List.length_map, List.enum_length, randomSample_length, min_assoc, min_self]
  · rw [createdWeeklyQuests_libIds]
    exact randomSample_map_nodup _ _ _ _ hpool
  · intro a ha
    have hmm : a.libraryId ∈ (createdWeeklyQuests st wk r rngW idsW).map
        (fun a => a.libraryId) := List.mem_map_of_mem _ ha
    rw [createdWeeklyQuests_libIds] at hmm
    obtain ⟨q, hq, hqe⟩ := List.mem_map.mp hmm
    exact hqe ▸ List.mem_map_of_mem _ (randomSample_subset _ _ _ q hq)

/-- Witness for C5: pool of 2 active entries, daily count 3 → 2 distinct picks. -/
theorem quest_assignment_without_replacement_witness :
    (createdDailyQuests stTwoQuests 0 rng0 ids0).length = 2 ∧
    ((createdDailyQuests stTwoQuests 0 rng0 ids0).map (fun a => a.libraryId)).Nodup := by
  have h := quest_assignment_without_replacement stTwoQuests 0 0 rng0 rng0 ids0 ids0 0
    (by decide)
  exact ⟨h.1.trans (by decide), h.2.1⟩

theorem weeklyCount_range_bounds (s : Settings) (r : Nat)
    (hm : s.weeklyQuestMode = "range") (hmm : s.weeklyQuestMin ≤ s.weeklyQuestMax) :
    s.weeklyQuestMin ≤ weeklyCount s r ∧ weeklyCount s r ≤ s.weeklyQuestMax := by
  unfold weeklyCount
  have hb : (s.weeklyQuestMode == "range") = true := beq_iff_eq.mpr hm
  rw [hb, if_pos rfl]
  set k : Int := (s.weeklyQuestMax : Int) - (s.weeklyQuestMin : Int) + 1 with hk
  have hkpos : 0 < k := by omega
  unfold floorRandMul
  rw [if_pos hkpos]
  have h0 : 0 ≤ (r : Int) % k := Int.emod_nonneg _ (ne_of_gt hkpos)
  have h1 : (r : Int) % k < k := Int.emod_lt_of_pos _ hkpos
  omega

/-- C6 (amended): in `'range'` mode with `weeklyQuestMin ≤ weeklyQuestMax`
and an active pool of at least `weeklyQuestMax` entries, every invocation of
the weekly assignment — for every value of the random source — creates an
integer number of quests in `[weeklyQuestMin, weeklyQuestMax]` inclusive,
each carrying multiplier equal to the configured weekly factor whenever that
factor is nonzero (the source's `weeklyFactor || 1` substitutes 1 for a zero
factor). -/
theorem weekly_range_assignment (st : AppState) (wk : Int) (r : Nat)
    (rng : Nat → Nat) (ids : Nat → String)
    (hm : st.settings.weeklyQuestMode = "range")
    (hmm : st.settings.weeklyQuestMin ≤ st.settings.weeklyQuestMax)
    (hpool : st.settings.weeklyQuestMax
        ≤ (st.questLibrary.filter (fun q => q.active)).length)
    (hfac : st.settings.weeklyFactor ≠ 0) :
    st.settings.weeklyQuestMin ≤ (createdWeeklyQuests st wk r rng ids).length ∧
    (createdWeeklyQuests st wk r rng ids).length ≤ st.settings.weeklyQuestMax ∧
    ∀ a ∈ createdWeeklyQuests st wk r rng ids,
      a.multiplier = st.settings.weeklyFactor := by
  obtain ⟨hlo, hhi⟩ := weeklyCount_range_bounds st.settings r hm hmm
  have hlen : (createdWeeklyQuests st wk r rng ids).length = weeklyCount st.settings r := by
    unfold createdWeeklyQuests
    rw [List.length_map, List.enum_length, randomSample_length]
    omega
  refine ⟨by omega, by omega, ?_⟩
  intro a ha
  unfold createdWeeklyQuests at ha
  obtain ⟨p, hp, hpe⟩ := List.mem_map.mp ha
  rw [← hpe]
  show orOneQ st.settings.weeklyFactor = st.settings.weeklyFactor
  unfold orOneQ
  rw [if_neg hfac]

/-- Witness for C6 (amended): mode range, min 2, max 4, pool of 4. -/
theorem weekly_range_assignment_witness :
    2 ≤ (createdWeeklyQuests stRangePool 0 0 rng0 ids0).length ∧
    (createdWeeklyQuests stRangePool 0 0 rng0 ids0).length ≤ 4 ∧
    ∀ a ∈ createdWeeklyQuests stRangePool 0 0 rng0 ids0,
      a.multiplier = stRangePool.settings.weeklyFactor := by
  have h := weekly_range_assignment stRangePool 0 0 rng0 ids0 rfl (by decide)
    (by decide) (by norm_num [stRangePool, DefaultSettings])
  exact h

/-- C6 counterexample: with the configured weekly factor 0 (and the claim's
other hypotheses satisfied) the created weekly quest carries multiplier 1,
not the configured factor — the source's `weeklyFactor || 1` fallback. -/
theorem weekly_zero_factor_cex :
    stZeroFactor.settings.weeklyQuestMode = "range" ∧
    stZeroFactor.settings.weeklyQuestMin ≤ stZeroFactor.settings.weeklyQuestMax ∧
    stZeroFactor.settings.weeklyQuestMax
      ≤ (stZeroFactor.questLibrary.filter (fun q => q.active)).length ∧
    stZeroFactor.settings.weeklyFactor = 0 ∧
    (createdWeeklyQuests stZeroFactor 0 0 rng0 ids0).map (fun a => a.multiplier)
      = [1] := by
  refine ⟨rfl, by decide, by decide, by decide, by decide⟩

end LifeRPG
